import Mathlib

/-!
Shallow embedding of `src/v1.py`, the multi-interval stock anomaly
monitor.

The analytical core of the script is `calculate_metrics`
(src/v1.py lines 30-59) plus the per-interval dashboard loop
(lines 72-99).  It is embedded here over exact rationals.  Cells of the
pandas percent-change columns can be `NaN` or `±inf` (their divisions are
unguarded), so they are represented by the four-constructor type `PF`;
the `Close`/`Volume` input columns and the EMA columns are always finite
and stay in `ℚ`.  The pandas primitives the script uses (`pct_change`,
`ewm(span=s).mean()` with the pandas default `adjust=True`, negative
`iloc` slicing, `Series.abs`, the NaN-skipping `Series.mean`, scalar
comparison with NaN/inf) are embedded by the functions below, each
documented with the source line it comes from.
-/

/-- A cell of a pandas float column: a finite rational, `+inf`, `-inf`
or `NaN`. -/
inductive PF where
  | fin (q : ℚ)
  | pinf
  | ninf
  | nan
deriving DecidableEq

/-- True exactly on `NaN` (pandas `isna` on a float cell). -/
def PF.isNan : PF → Bool
  | PF.nan => true
  | _ => false

/-- True exactly on finite cells. -/
def PF.isFinite : PF → Bool
  | PF.fin _ => true
  | _ => false

/-- `Series.abs` on one cell: `abs(-inf) = +inf`, `abs(NaN) = NaN`. -/
def pfAbs : PF → PF
  | PF.fin q => PF.fin |q|
  | PF.pinf => PF.pinf
  | PF.ninf => PF.pinf
  | PF.nan => PF.nan

/-- IEEE-style addition on cells: `NaN` absorbs, `+inf + -inf = NaN`. -/
def pfAdd : PF → PF → PF
  | PF.nan, _ => PF.nan
  | _, PF.nan => PF.nan
  | PF.fin a, PF.fin b => PF.fin (a + b)
  | PF.pinf, PF.ninf => PF.nan
  | PF.ninf, PF.pinf => PF.nan
  | PF.pinf, _ => PF.pinf
  | _, PF.pinf => PF.pinf
  | PF.ninf, _ => PF.ninf
  | _, PF.ninf => PF.ninf

/-- Sum of a list of cells (the sum step of `Series.mean`). -/
def pfSum (l : List PF) : PF :=
  l.foldr pfAdd (PF.fin 0)

/-- Division of a cell by a (positive) count, the final step of
`Series.mean`. -/
def pfDivNat : PF → ℕ → PF
  | PF.fin a, n => PF.fin (a / n)
  | PF.pinf, _ => PF.pinf
  | PF.ninf, _ => PF.ninf
  | PF.nan, _ => PF.nan

/-- pandas `Series.mean()` with its default `skipna=True`: `NaN` entries
are dropped from both the sum and the count; an all-`NaN` (or empty)
series has mean `NaN`; infinities propagate. -/
def nanmean (l : List PF) : PF :=
  if (l.filter (fun x => !(PF.isNan x))).isEmpty then PF.nan
  else pfDivNat (pfSum (l.filter (fun x => !(PF.isNan x))))
    (l.filter (fun x => !(PF.isNan x))).length

/-- IEEE-style strict `>` on cells as used by the line-96 comparison:
any comparison involving `NaN` is false, `+inf > +inf` is false,
`+inf` exceeds everything else, `-inf` exceeds nothing. -/
def pfGtB : PF → PF → Bool
  | PF.nan, _ => false
  | _, PF.nan => false
  | PF.fin a, PF.fin b => decide (b < a)
  | PF.fin _, PF.pinf => false
  | PF.fin _, PF.ninf => true
  | PF.pinf, PF.pinf => false
  | PF.pinf, _ => true
  | PF.ninf, _ => false

/-- Multiplication of a cell by the integer literal `2`
(`metrics['avg_p_chg'] * 2`, src/v1.py line 96). -/
def pfMul2 : PF → PF
  | PF.fin q => PF.fin (q * 2)
  | PF.pinf => PF.pinf
  | PF.ninf => PF.ninf
  | PF.nan => PF.nan

/-- One step of pandas `pct_change() * 100` (src/v1.py lines 36-37):
`(cur / prev - 1) * 100`, with numpy float semantics when the previous
value is zero (`x/0 = +inf` for `x > 0`, `-inf` for `x < 0`, `NaN` for
`0/0`). -/
def pctStep (prev cur : ℚ) : PF :=
  if prev = 0 then
    if 0 < cur then PF.pinf else if cur < 0 then PF.ninf else PF.nan
  else PF.fin ((cur / prev - 1) * 100)

/-- Tail of the percent-change column, given the previous raw value. -/
def pctChangeFrom (prev : ℚ) : List ℚ → List PF
  | [] => []
  | c :: cs => pctStep prev c :: pctChangeFrom c cs

/-- pandas `Series.pct_change() * 100` (src/v1.py lines 36-37): entry 0
is `NaN`, entry `i ≥ 1` is `(x[i]/x[i-1] - 1) * 100`. -/
def pctChange : List ℚ → List PF
  | [] => []
  | x :: xs => PF.nan :: pctChangeFrom x xs

/-- The finite value of the percent change of `xs` at index `i`
(defined whenever `xs[i-1] ≠ 0`); used to state what the baseline
window averages. -/
def pctVal (xs : List ℚ) (i : ℕ) : ℚ :=
  (xs.getD i 0 / xs.getD (i - 1) 0 - 1) * 100

/-- Accumulator form of pandas `ewm(span).mean()` with the pandas
default `adjust=True`: the running weighted numerator is
`n' = x + b*n` and the running weight total is `d' = 1 + b*d`, each
output being `n'/d'`. -/
def ewmStep (b : ℚ) : List ℚ → ℚ → ℚ → List ℚ
  | [], _, _ => []
  | x :: xs, n, d =>
      ((x + b * n) / (1 + b * d)) :: ewmStep b xs (x + b * n) (1 + b * d)

/-- pandas `Series.ewm(span=span).mean()` (src/v1.py lines 49-50):
`adjust=True` (the pandas default, which v1.py does not override), decay
`b = 1 - α` with `α = 2/(span+1)`. -/
def ewmMean (span : ℕ) (xs : List ℚ) : List ℚ :=
  ewmStep (1 - 2 / ((span : ℚ) + 1)) xs 0 0

/-- `Series.iloc[-1]` on a rational column (src/v1.py lines 40-41, 57:
the column is nonempty whenever it is read, thanks to the length-12
guard; the default is never hit there). -/
def lastD (xs : List ℚ) : ℚ :=
  xs.getD (xs.length - 1) 0

/-- `Series.iloc[-1]` on a float (percent-change) column. -/
def lastPF (xs : List PF) : PF :=
  xs.getD (xs.length - 1) PF.nan

/-- One row of the fetched OHLCV table.  Only `Close` and `Volume` are
ever read by the analytical code (src/v1.py lines 36-59); the other
columns are omitted. -/
structure Bar where
  close : ℚ
  volume : ℚ
deriving DecidableEq

/-- One interval's fetched table (`yf.download` result, src/v1.py
lines 18-28): the raw rows, plus the four derived columns that
`calculate_metrics` writes back onto the same table in place
(`none` on a freshly fetched frame). -/
structure DF where
  bars : List Bar
  priceChg : Option (List PF)
  volChg : Option (List PF)
  emaF : Option (List ℚ)
  emaS : Option (List ℚ)
deriving DecidableEq

/-- A freshly fetched frame: raw rows only, no derived columns. -/
def freshDF (bars : List Bar) : DF :=
  { bars := bars, priceChg := none, volChg := none, emaF := none, emaS := none }

/-- The empty frame `yf.download` returns when a fetch fails. -/
def emptyDF : DF :=
  freshDF []

/-- The dict returned by `calculate_metrics` (src/v1.py lines 52-59). -/
structure Metrics where
  curr_p_chg : PF
  curr_v_chg : PF
  avg_p_chg : PF
  avg_v_chg : PF
  last_close : ℚ
  trend : String
deriving DecidableEq

/-- The keys of the dict literal returned by `calculate_metrics`
(src/v1.py lines 52-59).  There is no crossover-state entry. -/
def metricsKeys : List String :=
  ["curr_p_chg", "curr_v_chg", "avg_p_chg", "avg_v_chg", "last_close", "trend"]

/-- Embedding of `calculate_metrics` (src/v1.py lines 30-59), together
with its in-place effect on the caller's table: the result pairs the
updated table (the function assigns the `Price_Chg`, `Vol_Chg`, `EMA_F`
and `EMA_S` columns onto `df` itself before returning, lines 36-37 and
49-50) with the returned dict (`none` embeds Python `None`, line 33). -/
def calculate_metricsFull (ema_fast ema_slow : ℕ) (df : DF) :
    DF × Option Metrics :=
  if df.bars.length < 12 then (df, none)
  else
    let close := df.bars.map Bar.close
    let volume := df.bars.map Bar.volume
    let priceChg := pctChange close
    let volChg := pctChange volume
    let emaF := ewmMean ema_fast close
    let emaS := ewmMean ema_slow close
    ({ df with priceChg := some priceChg, volChg := some volChg,
               emaF := some emaF, emaS := some emaS },
     some
      { curr_p_chg := lastPF priceChg
        curr_v_chg := lastPF volChg
        avg_p_chg :=
          nanmean (((priceChg.drop (priceChg.length - 11)).take 10).map pfAbs)
        avg_v_chg :=
          nanmean (((volChg.drop (volChg.length - 11)).take 10).map pfAbs)
        last_close := lastD close
        trend := if lastD emaF > lastD emaS then "Bull" else "Bear" })

/-- The value `calculate_metrics` hands to the caller (src/v1.py
line 74). -/
def calculate_metrics (ema_fast ema_slow : ℕ) (df : DF) : Option Metrics :=
  (calculate_metricsFull ema_fast ema_slow df).2

/-- The line-96 anomaly condition:
`abs(metrics['curr_p_chg']) > metrics['avg_p_chg'] * 2`. -/
def isExtreme (m : Metrics) : Bool :=
  pfGtB (pfAbs m.curr_p_chg) (pfMul2 m.avg_p_chg)

/-- The status string of src/v1.py line 96. -/
def status (m : Metrics) : String :=
  if isExtreme m then "🔥 劇烈波動" else "😴 平穩"

/-- One dashboard pass of the main loop (src/v1.py lines 72-99): each
configured interval's fetched frame is evaluated independently; a `none`
cell is rendered as the explicit "數據加載中..." (no data) marker of
line 99. -/
def tickPass (ema_fast ema_slow : ℕ) (fetched : List (String × DF)) :
    List (String × Option Metrics) :=
  fetched.map (fun p => (p.1, calculate_metrics ema_fast ema_slow p.2))

/-- Concrete 12-row frame: flat prices and volumes for the trailing
window, then a +1% price move with unchanged volume on the last bar. -/
def dfC1 : DF :=
  freshDF (List.replicate 11 ⟨100, 100⟩ ++ [⟨101, 100⟩])

/-- Concrete 15-row frame (more than 12 rows, fewer than
`slowPeriod + 2 = 23` for the configured slow period 21). -/
def dfC2 : DF :=
  freshDF (List.replicate 15 ⟨10, 5⟩)

/-- Concrete 12-row frame with constant rows. -/
def dfC4 : DF :=
  freshDF (List.replicate 12 ⟨7, 3⟩)

/-- Concrete 12-row frame with varied, nonzero closes and volumes. -/
def dfC5 : DF :=
  freshDF [⟨100, 10⟩, ⟨101, 20⟩, ⟨99, 10⟩, ⟨102, 20⟩, ⟨98, 10⟩, ⟨103, 20⟩,
           ⟨97, 10⟩, ⟨104, 20⟩, ⟨96, 10⟩, ⟨105, 20⟩, ⟨95, 10⟩, ⟨106, 20⟩]

/-- Concrete 12-row frame with all rows equal, so that the fast and
slow EMAs coincide on every row. -/
def dfC6 : DF :=
  freshDF (List.replicate 12 ⟨100, 100⟩)

/-- Concrete 12-row frame with a flat price history (zero baseline) and
a +2% move on the last bar. -/
def dfC7 : DF :=
  freshDF [⟨50, 7⟩, ⟨50, 8⟩, ⟨50, 9⟩, ⟨50, 10⟩, ⟨50, 11⟩, ⟨50, 12⟩,
           ⟨50, 13⟩, ⟨50, 14⟩, ⟨50, 15⟩, ⟨50, 16⟩, ⟨50, 17⟩, ⟨51, 18⟩]

/-- Concrete freshly fetched 12-row frame. -/
def dfC8 : DF :=
  freshDF (List.replicate 12 ⟨3, 1⟩)

/-- Concrete 12-row frame that a successful fetch could return. -/
def dfC9 : DF :=
  freshDF (List.replicate 12 ⟨8, 4⟩)

/-- A tick's fetch results: the first interval's fetch failed (empty
frame), the second succeeded. -/
def fetchedW : List (String × DF) :=
  [("1m", emptyDF), ("5m", dfC9)]

/-- Concrete 12-row frame whose second-to-last bar has zero volume. -/
def dfC10 : DF :=
  freshDF (List.replicate 10 ⟨5, 2⟩ ++ [⟨5, 0⟩, ⟨6, 3⟩])

/-- Metrics value with a nonzero price move over a unit baseline; its
volume fields are large. -/
def mW1 : Metrics :=
  ⟨PF.fin 5, PF.fin 999, PF.fin 1, PF.fin 0, 10, "Bull"⟩

/-- Same price fields as `mW1`, entirely different volume fields. -/
def mW2 : Metrics :=
  ⟨PF.fin 5, PF.fin 0, PF.fin 1, PF.fin 777, 10, "Bear"⟩

/-- Metrics value whose price baseline is exactly zero. -/
def mW3 : Metrics :=
  ⟨PF.fin 1, PF.fin 0, PF.fin 0, PF.fin 5, 100, "Bear"⟩

/-! ### Structural lemmas about the embedded pandas primitives -/

lemma pctChangeFrom_length (xs : List ℚ) : ∀ p : ℚ, (pctChangeFrom p xs).length = xs.length := by
  induction xs with
  | nil => intro p; rfl
  | cons x xs ih => intro p; simp [pctChangeFrom, ih]

lemma pctChange_length (xs : List ℚ) : (pctChange xs).length = xs.length := by
  cases xs with
  | nil => rfl
  | cons x xs => simp [pctChange, pctChangeFrom_length]

lemma ewmStep_length (b : ℚ) (xs : List ℚ) :
    ∀ n d : ℚ, (ewmStep b xs n d).length = xs.length := by
  induction xs with
  | nil => intro n d; rfl
  | cons x xs ih => intro n d; simp [ewmStep, ih]

lemma ewmMean_length (span : ℕ) (xs : List ℚ) : (ewmMean span xs).length = xs.length := by
  simp [ewmMean, ewmStep_length]

lemma pctChangeFrom_getD (xs : List ℚ) :
    ∀ (p : ℚ) (i : ℕ), i < xs.length →
      (pctChangeFrom p xs).getD i PF.nan
        = pctStep ((p :: xs).getD i 0) (xs.getD i 0) := by
  induction xs with
  | nil => intro p i h; simp at h
  | cons x xs ih =>
      intro p i h
      cases i with
      | zero => simp [pctChangeFrom]
      | succ n =>
          simp only [pctChangeFrom, List.getD_cons_succ]
          exact ih x n (by simpa using h)

lemma pctChange_getD (xs : List ℚ) (i : ℕ) (h1 : 1 ≤ i) (h2 : i < xs.length) :
    (pctChange xs).getD i PF.nan = pctStep (xs.getD (i - 1) 0) (xs.getD i 0) := by
  cases xs with
  | nil => simp at h2
  | cons x xs =>
      obtain ⟨j, rfl⟩ : ∃ j, i = j + 1 := ⟨i - 1, by omega⟩
      simp only [pctChange, List.getD_cons_succ, Nat.add_sub_cancel]
      exact pctChangeFrom_getD xs x j (by simpa using h2)

/-- Explicit form of a successful `calculate_metrics` call: with at least
12 rows, the returned dict is exactly the lines 52-59 literal. -/
lemma calculate_metrics_eq (ema_fast ema_slow : ℕ) (df : DF)
    (hg : ¬ df.bars.length < 12) :
    calculate_metrics ema_fast ema_slow df = some
      { curr_p_chg := lastPF (pctChange (df.bars.map Bar.close))
        curr_v_chg := lastPF (pctChange (df.bars.map Bar.volume))
        avg_p_chg :=
          nanmean ((((pctChange (df.bars.map Bar.close)).drop
            ((pctChange (df.bars.map Bar.close)).length - 11)).take 10).map pfAbs)
        avg_v_chg :=
          nanmean ((((pctChange (df.bars.map Bar.volume)).drop
            ((pctChange (df.bars.map Bar.volume)).length - 11)).take 10).map pfAbs)
        last_close := lastD (df.bars.map Bar.close)
        trend :=
          if lastD (ewmMean ema_fast (df.bars.map Bar.close))
              > lastD (ewmMean ema_slow (df.bars.map Bar.close))
          then "Bull" else "Bear" } := by
  unfold calculate_metrics calculate_metricsFull
  rw [if_neg hg]

/-- Rendering of the line-96 status string from the extreme flag. -/
lemma status_of_extreme (o : Option Metrics) (h : o.map isExtreme = some true) :
    o.map status = some "🔥 劇烈波動" := by
  cases o with
  | none => simp at h
  | some m =>
      simp only [Option.map_some', Option.some.injEq] at h ⊢
      rw [status, h, if_pos rfl]

lemma pfSum_map_fin (vs : List ℚ) : pfSum (vs.map PF.fin) = PF.fin vs.sum := by
  induction vs with
  | nil => rfl
  | cons v vs ih =>
      simp only [List.map_cons, pfSum, List.foldr_cons, List.sum_cons]
      rw [show List.foldr pfAdd (PF.fin 0) (vs.map PF.fin) = pfSum (vs.map PF.fin) from rfl,
        ih]
      rfl

lemma nanmean_map_fin (vs : List ℚ) (hne : vs ≠ []) :
    nanmean (vs.map PF.fin) = PF.fin (vs.sum / vs.length) := by
  have hfil : (vs.map PF.fin).filter (fun x => !(PF.isNan x)) = vs.map PF.fin :=
    List.filter_eq_self.mpr (by
      intro a ha
      obtain ⟨q, _, rfl⟩ := List.mem_map.mp ha
      rfl)
  have hemp : (vs.map PF.fin).isEmpty = false := by
    cases vs with
    | nil => exact absurd rfl hne
    | cons v vs => rfl
  rw [nanmean, hfil, hemp]
  simp only [Bool.false_eq_true, if_false]
  rw [pfSum_map_fin, List.length_map]
  rfl

/-- The ten-entry `iloc[-11:-1]` window of a percent-change column,
written out index by index: entry `k` of the window is the percent
change at index `L - 11 + k`, finite whenever the preceding raw value
is nonzero. -/
lemma window_eq (xs : List ℚ) (L : ℕ) (hLx : xs.length = L) (hL : 12 ≤ L)
    (hnz : ∀ k, k < 10 → xs.getD (L - 12 + k) 0 ≠ 0) :
    ((pctChange xs).drop ((pctChange xs).length - 11)).take 10
      = (List.range 10).map (fun k => PF.fin (pctVal xs (L - 11 + k))) := by
  subst hLx
  have hlen : (pctChange xs).length = xs.length := pctChange_length xs
  apply List.ext_getElem
  · simp only [List.length_take, List.length_drop, hlen, List.length_map,
      List.length_range]
    omega
  · intro n h1 h2
    have hn : n < 10 := by
      simp only [List.length_take, List.length_drop] at h1
      omega
    rw [List.getElem_take, List.getElem_drop]
    have hb1 : 1 ≤ (pctChange xs).length - 11 + n := by omega
    have hb2 : (pctChange xs).length - 11 + n < xs.length := by omega
    rw [← List.getD_eq_getElem (pctChange xs) PF.nan (by omega),
      pctChange_getD xs _ hb1 hb2]
    have hi1 : (pctChange xs).length - 11 + n - 1 = xs.length - 12 + n := by omega
    have hi2 : (pctChange xs).length - 11 + n = xs.length - 11 + n := by omega
    rw [hi1, hi2]
    rw [List.getElem_map, List.getElem_range]
    unfold pctStep pctVal
    rw [if_neg (hnz n hn)]
    have hi3 : xs.length - 11 + n - 1 = xs.length - 12 + n := by omega
    rw [hi3]

/-- Average of the absolute values over the `iloc[-11:-1]` window: when
every window divisor is nonzero, pandas' NaN-skipping mean is the plain
arithmetic mean of the ten absolute percent changes. -/
lemma window_avg (xs : List ℚ) (L : ℕ) (hLx : xs.length = L) (hL : 12 ≤ L)
    (hnz : ∀ k, k < 10 → xs.getD (L - 12 + k) 0 ≠ 0) :
    nanmean ((((pctChange xs).drop ((pctChange xs).length - 11)).take 10).map pfAbs)
      = PF.fin ((((List.range 10).map (fun k => |pctVal xs (L - 11 + k)|)).sum) / 10) := by
  rw [window_eq xs L hLx hL hnz, List.map_map]
  have h1 : (pfAbs ∘ fun k => PF.fin (pctVal xs (L - 11 + k)))
      = fun k => PF.fin |pctVal xs (L - 11 + k)| := funext fun k => rfl
  rw [h1]
  rw [show (fun k => PF.fin |pctVal xs (L - 11 + k)|)
      = PF.fin ∘ (fun k => |pctVal xs (L - 11 + k)|) from rfl]
  rw [← List.map_map, nanmean_map_fin _ (by simp)]
  simp only [List.length_map, List.length_range]
  norm_num

/-- Closed form of the `ewmStep` accumulator: entry `i` is the
`b`-geometrically weighted average of the first `i+1` inputs, with the
initial accumulators carrying weight `b^(i+1)`. -/
lemma ewmStep_getD (b : ℚ) :
    ∀ (xs : List ℚ) (n d : ℚ) (i : ℕ), i < xs.length →
      (ewmStep b xs n d).getD i 0 =
        ((((List.range (i + 1)).map (fun j => b ^ j * xs.getD (i - j) 0)).sum)
            + b ^ (i + 1) * n)
          / ((((List.range (i + 1)).map (fun j => b ^ j)).sum) + b ^ (i + 1) * d)
  | [], n, d, i, h => absurd h (by simp)
  | x :: xs, n, d, 0, h => by
      rw [show List.range 1 = [0] from rfl]
      simp only [ewmStep, List.getD_cons_zero, List.map_cons,
        List.map_nil, List.sum_cons, List.sum_nil, pow_zero, pow_one,
        List.getD_cons_zero, Nat.zero_sub, one_mul, add_zero]
      congr 1 <;> ring
  | x :: xs, n, d, i + 1, h => by
      simp only [ewmStep, List.getD_cons_succ]
      rw [ewmStep_getD b xs (x + b * n) (1 + b * d) i (by simpa using h)]
      have hnum : ((List.range (i + 1 + 1)).map
            (fun j => b ^ j * (x :: xs).getD (i + 1 - j) 0)).sum
          = ((List.range (i + 1)).map (fun j => b ^ j * xs.getD (i - j) 0)).sum
            + b ^ (i + 1) * x := by
        rw [show i + 1 + 1 = (i + 1).succ from rfl, List.sum_range_succ]
        have hcg : ∀ j ∈ List.range (i + 1),
            b ^ j * (x :: xs).getD (i + 1 - j) 0 = b ^ j * xs.getD (i - j) 0 := by
          intro j hj
          have hj10 : j < i + 1 := List.mem_range.mp hj
          have : i + 1 - j = (i - j) + 1 := by omega
          rw [this, List.getD_cons_succ]
        rw [List.map_congr_left hcg]
        simp
      have hden : ((List.range (i + 1 + 1)).map (fun j => b ^ j)).sum
          = ((List.range (i + 1)).map (fun j => b ^ j)).sum + b ^ (i + 1) := by
        rw [show i + 1 + 1 = (i + 1).succ from rfl, List.sum_range_succ]
      rw [hnum, hden]
      congr 1 <;> ring

set_option maxRecDepth 2500 in
lemma dfC1_price_cond :
    (calculate_metrics 9 21 dfC1).map
      (fun m => pfGtB (pfAbs m.curr_p_chg) (pfMul2 m.avg_p_chg)) = some true := by
  with_unfolding_all decide

set_option maxRecDepth 2500 in
lemma dfC1_vol_cond :
    (calculate_metrics 9 21 dfC1).map
      (fun m => pfGtB (pfAbs m.curr_v_chg) (pfMul2 m.avg_v_chg)) = some false := by
  with_unfolding_all decide

set_option maxRecDepth 2500 in
lemma dfC1_extreme : (calculate_metrics 9 21 dfC1).map isExtreme = some true := by
  with_unfolding_all decide

set_option maxRecDepth 2500 in
lemma dfC7_avg_zero :
    (calculate_metrics 9 21 dfC7).map Metrics.avg_p_chg = some (PF.fin 0) := by
  with_unfolding_all decide

set_option maxRecDepth 2500 in
lemma dfC7_curr_two :
    (calculate_metrics 9 21 dfC7).map Metrics.curr_p_chg = some (PF.fin 2) := by
  with_unfolding_all decide

set_option maxRecDepth 2500 in
lemma dfC7_extreme : (calculate_metrics 9 21 dfC7).map isExtreme = some true := by
  with_unfolding_all decide

/-! ### Claim theorems -/

/-- C1 (counterexample): on `dfC1` the price condition
`|curr_p_chg| > avg_p_chg * 2` holds, the corresponding volume condition
fails, yet the extreme flag of line 96 is raised — refuting the claim
that `isExtreme` requires both conditions and is false whenever the
volume condition fails. -/
theorem C1_extreme_requires_both_refuted :
    (calculate_metrics 9 21 dfC1).map
      (fun m => pfGtB (pfAbs m.curr_p_chg) (pfMul2 m.avg_p_chg)) = some true
    ∧ (calculate_metrics 9 21 dfC1).map
      (fun m => pfGtB (pfAbs m.curr_v_chg) (pfMul2 m.avg_v_chg)) = some false
    ∧ (calculate_metrics 9 21 dfC1).map isExtreme = some true
    ∧ (calculate_metrics 9 21 dfC1).map status = some "🔥 劇烈波動" :=
  ⟨dfC1_price_cond, dfC1_vol_cond, dfC1_extreme, status_of_extreme _ dfC1_extreme⟩

/-- C1 (amended): the line-96 anomaly flag is true exactly when
`|curr_p_chg| > avg_p_chg * 2`; the volume fields are never consulted —
two metric values agreeing on the price fields get the same flag. -/
theorem C1_extreme_price_only (m m' : Metrics)
    (h1 : m.curr_p_chg = m'.curr_p_chg) (h2 : m.avg_p_chg = m'.avg_p_chg) :
    (isExtreme m = true ↔ pfGtB (pfAbs m.curr_p_chg) (pfMul2 m.avg_p_chg) = true)
    ∧ (status m = "🔥 劇烈波動" ↔ isExtreme m = true)
    ∧ isExtreme m = isExtreme m' := by
  refine ⟨Iff.rfl, ?_, ?_⟩
  · rw [status]
    by_cases hx : isExtreme m
    · simp [hx]
    · simp [hx]
  · rw [isExtreme, isExtreme, h1, h2]

/-- C1 (witness): the amended claim evaluated at the concrete metric
values `mW1`, `mW2`, which differ only in their volume fields. -/
theorem C1_extreme_price_only_wit :
    mW1.curr_p_chg = mW2.curr_p_chg
    ∧ ((isExtreme mW1 = true ↔ pfGtB (pfAbs mW1.curr_p_chg) (pfMul2 mW1.avg_p_chg) = true)
      ∧ (status mW1 = "🔥 劇烈波動" ↔ isExtreme mW1 = true)
      ∧ isExtreme mW1 = isExtreme mW2) :=
  ⟨rfl, C1_extreme_price_only mW1 mW2 rfl rfl⟩

/-- C2 (counterexample): `dfC2` has 15 bars, fewer than
`slowPeriod + 2 = 23` for the configured slow period 21, yet
`calculate_metrics` returns a full result rather than the insufficient
data `None`. -/
theorem C2_slow_period_minimum_refuted :
    dfC2.bars.length < 21 + 2 ∧ (calculate_metrics 9 21 dfC2).isSome = true := by
  decide

/-- C2 (amended): `calculate_metrics` returns the insufficient-data
`None` exactly when the frame has fewer than 12 rows
(`windowSize + 2` for the fixed window 10), for every `fastPeriod` and
`slowPeriod` — the guard of line 32 never consults the EMA periods. -/
theorem C2_fixed_length_guard (ema_fast ema_slow : ℕ) (df : DF) :
    calculate_metrics ema_fast ema_slow df = none ↔ df.bars.length < 12 := by
  by_cases hg : df.bars.length < 12
  · simp [calculate_metrics, calculate_metricsFull, hg]
  · simp [calculate_metrics, calculate_metricsFull, hg]

/-- C3 (counterexample): for closes `[10, 11, 9]` the code's EMA is
`43/4` at index 1 for period 2 (and `95/9` for period 9), while the
claimed recursion `α·close[1] + (1-α)·ema[0]` gives `32/3` (resp.
`51/5`) — the code does not compute the non-adjusted recursive EWMA. -/
theorem C3_recursive_ewma_refuted :
    (ewmMean 2 [10, 11, 9]).getD 0 0 = 10
    ∧ (ewmMean 2 [10, 11, 9]).getD 1 0 = 43 / 4
    ∧ 2 / ((2 : ℚ) + 1) * 11 + (1 - 2 / ((2 : ℚ) + 1)) * (ewmMean 2 [10, 11, 9]).getD 0 0 = 32 / 3
    ∧ (43 : ℚ) / 4 ≠ 32 / 3
    ∧ (ewmMean 9 [10, 11, 9]).getD 1 0 = 95 / 9
    ∧ 2 / ((9 : ℚ) + 1) * 11 + (1 - 2 / ((9 : ℚ) + 1)) * (ewmMean 9 [10, 11, 9]).getD 0 0 = 51 / 5
    ∧ (95 : ℚ) / 9 ≠ 51 / 5 := by
  with_unfolding_all decide

/-- C3 (amended): the code's EMA is the pandas `adjust=True` weighted
form: for every span and every index `i`,
`ema[i] = (Σ_j b^j·close[i-j]) / (Σ_j b^j)` with `b = 1 - 2/(span+1)`,
the sums running over `j = 0..i`; in particular `ema[0] = close[0]`. -/
theorem C3_adjusted_ewma (span : ℕ) (xs : List ℚ) (i : ℕ) (h : i < xs.length) :
    (ewmMean span xs).getD i 0 =
      (((List.range (i + 1)).map
        (fun j => (1 - 2 / ((span : ℚ) + 1)) ^ j * xs.getD (i - j) 0)).sum)
      / (((List.range (i + 1)).map (fun j => (1 - 2 / ((span : ℚ) + 1)) ^ j)).sum) := by
  have h0 := ewmStep_getD (1 - 2 / ((span : ℚ) + 1)) xs 0 0 i h
  rw [ewmMean, h0]
  simp only [mul_zero, add_zero]

/-- C3 (witness): the adjusted-EWMA closed form evaluated at span 2,
closes `[10, 11, 9]`, index 1. -/
theorem C3_adjusted_ewma_wit :
    1 < ([10, 11, 9] : List ℚ).length
    ∧ (ewmMean 2 [10, 11, 9]).getD 1 0 =
      (((List.range (1 + 1)).map
        (fun j => (1 - 2 / (((2 : ℕ) : ℚ) + 1)) ^ j * ([10, 11, 9] : List ℚ).getD (1 - j) 0)).sum)
      / (((List.range (1 + 1)).map (fun j => (1 - 2 / (((2 : ℕ) : ℚ) + 1)) ^ j)).sum) :=
  ⟨by decide, C3_adjusted_ewma 2 [10, 11, 9] 1 (by decide)⟩

/-- C4 (counterexample): on a 12-row frame the evaluation succeeds, yet
the returned dict has no `crossState` entry at all — its keys are
exactly the six of `metricsKeys`. -/
theorem C4_crossState_missing :
    (calculate_metrics 9 21 dfC4).isSome = true ∧ "crossState" ∉ metricsKeys := by
  exact ⟨by decide, by decide⟩

/-- C4 (amended): the per-interval result carries only the six entries
of `metricsKeys` — a trend label (`Bull` on strict `emaFast > emaSlow`,
else `Bear`) but no `crossState`; no crossover detection exists in the
code. -/
theorem C4_trend_only_result (ema_fast ema_slow : ℕ) (df : DF)
    (h : 12 ≤ df.bars.length) :
    (calculate_metrics ema_fast ema_slow df).map Metrics.trend
      = some (if lastD (ewmMean ema_slow (df.bars.map Bar.close))
                  < lastD (ewmMean ema_fast (df.bars.map Bar.close))
              then "Bull" else "Bear")
    ∧ "crossState" ∉ metricsKeys ∧ "trend" ∈ metricsKeys := by
  refine ⟨?_, by decide, by decide⟩
  rw [calculate_metrics_eq ema_fast ema_slow df (by omega)]
  rfl

/-- C4 (witness): the amended claim evaluated on the concrete 12-row
frame `dfC4`. -/
theorem C4_trend_only_result_wit :
    12 ≤ dfC4.bars.length
    ∧ ((calculate_metrics 9 21 dfC4).map Metrics.trend
        = some (if lastD (ewmMean 21 (dfC4.bars.map Bar.close))
                    < lastD (ewmMean 9 (dfC4.bars.map Bar.close))
                then "Bull" else "Bear")
      ∧ "crossState" ∉ metricsKeys ∧ "trend" ∈ metricsKeys) :=
  ⟨by decide, C4_trend_only_result 9 21 dfC4 (by decide)⟩

/-- C5 (confirmed): for every frame long enough to be evaluated whose
window divisors are nonzero, the baseline fields are the arithmetic
means of the absolute percent changes over exactly the ten indices
`[L-11, L-2]` — the ten entries immediately preceding the most recent
bar, computed independently for price and volume and excluding the most
recent bar's own change (which sits at index `L-1`). -/
theorem C5_baseline_trailing_window (ema_fast ema_slow : ℕ) (df : DF)
    (h : 12 ≤ df.bars.length)
    (hp : ∀ k, k < 10 → (df.bars.map Bar.close).getD (df.bars.length - 12 + k) 0 ≠ 0)
    (hv : ∀ k, k < 10 → (df.bars.map Bar.volume).getD (df.bars.length - 12 + k) 0 ≠ 0) :
    (calculate_metrics ema_fast ema_slow df).map Metrics.avg_p_chg
      = some (PF.fin ((((List.range 10).map
          (fun k => |pctVal (df.bars.map Bar.close) (df.bars.length - 11 + k)|)).sum) / 10))
    ∧ (calculate_metrics ema_fast ema_slow df).map Metrics.avg_v_chg
      = some (PF.fin ((((List.range 10).map
          (fun k => |pctVal (df.bars.map Bar.volume) (df.bars.length - 11 + k)|)).sum) / 10)) := by
  rw [calculate_metrics_eq ema_fast ema_slow df (by omega)]
  constructor
  · simp only [Option.map_some', Option.some.injEq]
    exact window_avg (df.bars.map Bar.close) df.bars.length (by simp) h hp
  · simp only [Option.map_some', Option.some.injEq]
    exact window_avg (df.bars.map Bar.volume) df.bars.length (by simp) h hv

set_option maxRecDepth 2500 in
/-- C5 (witness): the trailing-window baseline evaluated on the
concrete 12-row frame `dfC5` with nonzero closes and volumes. -/
theorem C5_baseline_trailing_window_wit :
    12 ≤ dfC5.bars.length
    ∧ ((calculate_metrics 9 21 dfC5).map Metrics.avg_p_chg
        = some (PF.fin ((((List.range 10).map
            (fun k => |pctVal (dfC5.bars.map Bar.close) (dfC5.bars.length - 11 + k)|)).sum) / 10))
      ∧ (calculate_metrics 9 21 dfC5).map Metrics.avg_v_chg
        = some (PF.fin ((((List.range 10).map
            (fun k => |pctVal (dfC5.bars.map Bar.volume) (dfC5.bars.length - 11 + k)|)).sum) / 10))) :=
  ⟨by decide, C5_baseline_trailing_window 9 21 dfC5 (by decide)
    (by with_unfolding_all decide) (by with_unfolding_all decide)⟩

/-- C6 (confirmed): the trend label is `Bull` exactly when
`emaFast[last] > emaSlow[last]` strictly, and `Bear` whenever that
strict inequality fails; in particular when the two EMAs tie the label
is `Bear`, and no crossover state exists to be registered. -/
theorem C6_trend_strict_gt (ema_fast ema_slow : ℕ) (df : DF)
    (h : 12 ≤ df.bars.length) :
    ((calculate_metrics ema_fast ema_slow df).map Metrics.trend = some "Bull"
        ↔ lastD (ewmMean ema_slow (df.bars.map Bar.close))
            < lastD (ewmMean ema_fast (df.bars.map Bar.close)))
    ∧ (¬ lastD (ewmMean ema_slow (df.bars.map Bar.close))
            < lastD (ewmMean ema_fast (df.bars.map Bar.close))
        → (calculate_metrics ema_fast ema_slow df).map Metrics.trend = some "Bear")
    ∧ (lastD (ewmMean ema_fast (df.bars.map Bar.close))
          = lastD (ewmMean ema_slow (df.bars.map Bar.close))
        → (calculate_metrics ema_fast ema_slow df).map Metrics.trend = some "Bear")
    ∧ "crossState" ∉ metricsKeys := by
  rw [calculate_metrics_eq ema_fast ema_slow df (by omega)]
  refine ⟨?_, fun hnc => ?_, fun heq => ?_, by decide⟩
  · simp only [Option.map_some', Option.some.injEq]
    by_cases hc : lastD (ewmMean ema_slow (df.bars.map Bar.close))
        < lastD (ewmMean ema_fast (df.bars.map Bar.close))
    · simp [hc]
    · simp [hc]
  · simp [hnc]
  · have hc : ¬ lastD (ewmMean ema_slow (df.bars.map Bar.close))
        < lastD (ewmMean ema_fast (df.bars.map Bar.close)) := by
      rw [heq]
      exact lt_irrefl _
    simp [hc]

set_option maxRecDepth 2500 in
/-- C6 (witness): on the all-equal frame `dfC6` the fast and slow EMAs
tie on the last row and the trend label is `Bear`. -/
theorem C6_trend_strict_gt_wit :
    12 ≤ dfC6.bars.length
    ∧ lastD (ewmMean 9 (dfC6.bars.map Bar.close))
        = lastD (ewmMean 21 (dfC6.bars.map Bar.close))
    ∧ (calculate_metrics 9 21 dfC6).map Metrics.trend = some "Bear" := by
  have hEq : lastD (ewmMean 9 (dfC6.bars.map Bar.close))
      = lastD (ewmMean 21 (dfC6.bars.map Bar.close)) := by
    with_unfolding_all decide
  exact ⟨by decide, hEq, (C6_trend_strict_gt 9 21 dfC6 (by decide)).2.2.1 hEq⟩

/-- C7 (counterexample): on the flat-market frame `dfC7` the price
baseline is exactly zero, yet classification is not skipped — the +2%
last-bar move raises the extreme flag, refuting the claim that a zero
baseline always yields `isExtreme = false`. -/
theorem C7_zero_baseline_refuted :
    (calculate_metrics 9 21 dfC7).map Metrics.avg_p_chg = some (PF.fin 0)
    ∧ (calculate_metrics 9 21 dfC7).map Metrics.curr_p_chg = some (PF.fin 2)
    ∧ (calculate_metrics 9 21 dfC7).map isExtreme = some true
    ∧ (calculate_metrics 9 21 dfC7).map status = some "🔥 劇烈波動" :=
  ⟨dfC7_avg_zero, dfC7_curr_two, dfC7_extreme, status_of_extreme _ dfC7_extreme⟩

/-- C7 (amended): line 96 has no zero-baseline guard.  When the price
baseline is `NaN` (undefined) the flag is false, because every
comparison against `NaN` is false; but when the baseline is exactly
zero the flag is raised for any metric whose absolute current price
change exceeds zero. -/
theorem C7_zero_baseline_behavior (m : Metrics) :
    (m.avg_p_chg = PF.nan → isExtreme m = false)
    ∧ (m.avg_p_chg = PF.fin 0 →
        (isExtreme m = true ↔ pfGtB (pfAbs m.curr_p_chg) (PF.fin 0) = true)) := by
  constructor
  · intro hn
    rw [isExtreme, hn]
    cases pfAbs m.curr_p_chg <;> rfl
  · intro h0
    rw [isExtreme, h0]
    show pfGtB (pfAbs m.curr_p_chg) (PF.fin (0 * 2)) = true ↔ _
    rw [zero_mul]

/-- C7 (witness): the amended claim evaluated at the concrete metric
value `mW3`, whose price baseline is exactly zero. -/
theorem C7_zero_baseline_behavior_wit :
    mW3.avg_p_chg = PF.fin 0
    ∧ (isExtreme mW3 = true ↔ pfGtB (pfAbs mW3.curr_p_chg) (PF.fin 0) = true) :=
  ⟨rfl, (C7_zero_baseline_behavior mW3).2 rfl⟩

/-- C8 (counterexample): running the pipeline on the freshly fetched
12-row frame `dfC8` does not leave the caller-visible table unchanged —
the table that comes back out of `calculate_metrics` differs from the
input (it has gained the derived columns). -/
theorem C8_no_mutation_refuted : (calculate_metricsFull 9 21 dfC8).1 ≠ dfC8 := by
  intro hEq
  have h1 : (calculate_metricsFull 9 21 dfC8).1.priceChg.isSome = true := by decide
  rw [hEq] at h1
  exact absurd h1 (by decide)

/-- C8 (amended): `calculate_metrics` mutates the caller's table in
place whenever it evaluates: with at least 12 rows it writes the
`Price_Chg`, `Vol_Chg`, `EMA_F` and `EMA_S` columns back onto the input
table (the raw rows themselves are preserved); only in the
insufficient-data case is the table left untouched. -/
theorem C8_in_place_columns (ema_fast ema_slow : ℕ) (df : DF) :
    (calculate_metricsFull ema_fast ema_slow df).1.bars = df.bars
    ∧ (df.bars.length < 12 → (calculate_metricsFull ema_fast ema_slow df).1 = df)
    ∧ (12 ≤ df.bars.length →
        (calculate_metricsFull ema_fast ema_slow df).1.priceChg
            = some (pctChange (df.bars.map Bar.close))
        ∧ (calculate_metricsFull ema_fast ema_slow df).1.volChg
            = some (pctChange (df.bars.map Bar.volume))
        ∧ (calculate_metricsFull ema_fast ema_slow df).1.emaF
            = some (ewmMean ema_fast (df.bars.map Bar.close))
        ∧ (calculate_metricsFull ema_fast ema_slow df).1.emaS
            = some (ewmMean ema_slow (df.bars.map Bar.close))) := by
  refine ⟨?_, fun hlt => ?_, fun hge => ?_⟩
  · by_cases hg : df.bars.length < 12 <;> simp [calculate_metricsFull, hg]
  · simp [calculate_metricsFull, hlt]
  · have hg : ¬ df.bars.length < 12 := by omega
    refine ⟨?_, ?_, ?_, ?_⟩ <;> simp [calculate_metricsFull, hg]

/-- C8 (witness): the in-place column writes evaluated on the concrete
12-row frame `dfC8`. -/
theorem C8_in_place_columns_wit :
    (calculate_metricsFull 9 21 dfC8).1.priceChg
        = some (pctChange (dfC8.bars.map Bar.close))
    ∧ (calculate_metricsFull 9 21 dfC8).1.volChg
        = some (pctChange (dfC8.bars.map Bar.volume))
    ∧ (calculate_metricsFull 9 21 dfC8).1.emaF
        = some (ewmMean 9 (dfC8.bars.map Bar.close))
    ∧ (calculate_metricsFull 9 21 dfC8).1.emaS
        = some (ewmMean 21 (dfC8.bars.map Bar.close)) :=
  (C8_in_place_columns 9 21 dfC8).2.2 (by decide)

/-- C9 (confirmed): a dashboard pass maps every interval independently —
entry `i` of the pass output is a function of fetch result `i` alone,
the output has one cell per configured interval, and a failed fetch
(empty frame) yields the explicit no-data marker `none` for that
interval only. -/
theorem C9_per_interval_isolation (ema_fast ema_slow : ℕ)
    (fetched : List (String × DF)) :
    (tickPass ema_fast ema_slow fetched).length = fetched.length
    ∧ (∀ i, i < fetched.length →
        (tickPass ema_fast ema_slow fetched).getD i ("", none)
          = ((fetched.getD i ("", emptyDF)).1,
             calculate_metrics ema_fast ema_slow (fetched.getD i ("", emptyDF)).2))
    ∧ calculate_metrics ema_fast ema_slow emptyDF = none := by
  refine ⟨by simp [tickPass], fun i hi => ?_, ?_⟩
  · have hi2 : i < (tickPass ema_fast ema_slow fetched).length := by
      simpa [tickPass] using hi
    rw [List.getD_eq_getElem _ _ hi2, List.getD_eq_getElem _ _ hi]
    simp [tickPass]
  · simp [calculate_metrics, calculate_metricsFull, emptyDF, freshDF]

/-- C9 (witness): a tick whose first interval's fetch failed still
produces the no-data cell for it, computed from that interval's own
fetch result. -/
theorem C9_per_interval_isolation_wit :
    0 < fetchedW.length
    ∧ (tickPass 9 21 fetchedW).getD 0 ("", none)
        = ((fetchedW.getD 0 ("", emptyDF)).1,
           calculate_metrics 9 21 (fetchedW.getD 0 ("", emptyDF)).2) :=
  ⟨by decide, (C9_per_interval_isolation 9 21 fetchedW).2.1 0 (by decide)⟩

/-- C10 (confirmed): with at least 12 bars and a zero volume on the bar
immediately preceding the last, the pipeline still returns a full
result, and the current volume percent change it reports is not a
finite number — the division in `Vol_Chg` is unguarded. -/
theorem C10_zero_volume_unguarded (ema_fast ema_slow : ℕ) (df : DF)
    (h : 12 ≤ df.bars.length)
    (hz : (df.bars.map Bar.volume).getD (df.bars.length - 2) 0 = 0) :
    (calculate_metrics ema_fast ema_slow df).isSome = true
    ∧ (calculate_metrics ema_fast ema_slow df).map
        (fun m => PF.isFinite m.curr_v_chg) = some false := by
  rw [calculate_metrics_eq ema_fast ema_slow df (by omega)]
  refine ⟨rfl, ?_⟩
  simp only [Option.map_some', Option.some.injEq]
  show PF.isFinite (lastPF (pctChange (df.bars.map Bar.volume))) = false
  have hlv : (df.bars.map Bar.volume).length = df.bars.length := by simp
  simp only [lastPF]
  rw [pctChange_length, hlv]
  rw [pctChange_getD _ _ (by omega) (by rw [hlv]; omega)]
  have hidx : df.bars.length - 1 - 1 = df.bars.length - 2 := by omega
  rw [hidx, hz]
  unfold pctStep
  rw [if_pos rfl]
  split
  · rfl
  · split <;> rfl

/-- C10 (witness): the unguarded volume division evaluated on the
concrete frame `dfC10`, whose second-to-last bar has volume zero. -/
theorem C10_zero_volume_unguarded_wit :
    12 ≤ dfC10.bars.length
    ∧ ((calculate_metrics 9 21 dfC10).isSome = true
      ∧ (calculate_metrics 9 21 dfC10).map
          (fun m => PF.isFinite m.curr_v_chg) = some false) :=
  ⟨by decide, C10_zero_volume_unguarded 9 21 dfC10 (by decide)
    (by with_unfolding_all decide)⟩
